import Mathlib

/-!
# Verification of the CRSF bridge protocol core

A shallow embedding of the protocol/transport core of the CRSF bridge
repository: the frame codec and resynchronizing stream parser
(`crsf_protocol.py`), the table-driven CRC (`channel_parser.py`), the UDP
envelope receive path (`udp_transport.py`), the bridge raw-forward logic
(`bridge_b.py`), the half-duplex transceiver send sequences
(`dual_gpio_uart.py`, `half_duplex_uart.py`), and the link-liveness state
machine (`udp_transport.py`).

Bytes are modelled as `Nat` (with explicit `&&& 0xFF` masking exactly where
the source masks), byte strings as `List Nat`, and time as `ℚ`.
-/

namespace CRSF

/-- `VALID_SYNC_BYTES` from `crsf_protocol.py`, in the order the parser's
scan loop iterates them. -/
def VALID_SYNC_BYTES : List Nat := [0xC8, 0xEA, 0xEC, 0xEE]

/-- `CRSFFrame.calc_crc` inner loop: one shift step of the CRC-8
(poly `0xD5`), with the `crc &= 0xFF` that Python applies each iteration. -/
def crcShiftStep (crc : Nat) : Nat :=
  if crc &&& 0x80 ≠ 0 then ((crc <<< 1) ^^^ 0xD5) &&& 0xFF
  else (crc <<< 1) &&& 0xFF

/-- `CRSFFrame.calc_crc` body for one input byte: xor the byte in, then
eight shift steps. -/
def crcByteStep (crc b : Nat) : Nat :=
  (crcShiftStep ∘ crcShiftStep ∘ crcShiftStep ∘ crcShiftStep ∘
   crcShiftStep ∘ crcShiftStep ∘ crcShiftStep ∘ crcShiftStep) (crc ^^^ b)

/-- `CRSFFrame.calc_crc` from `crsf_protocol.py`: bit-by-bit CRC-8 with
polynomial `0xD5`, init 0, no reflection. -/
def calc_crc (data : List Nat) : Nat :=
  data.foldl crcByteStep 0

/-- A parsed CRSF frame as `CRSFFrame` stores it: `__init__` normalizes
`frame_type` to its integer value, so the type is a plain byte; there are
no destination/origin fields (`build` never emits any). -/
structure Frame where
  sync_byte : Nat
  frame_type : Nat
  payload : List Nat
  deriving Repr, DecidableEq

/-- `CRSFFrame.build`: length = 1 (type) + payload + 1 (crc); CRC over
`[type] + payload`; frame bytes `[sync, length, type] + payload + [crc]`. -/
def build (sync_byte frame_type : Nat) (payload : List Nat) : List Nat :=
  let length := 1 + payload.length + 1
  let crc := calc_crc (frame_type :: payload)
  sync_byte :: length :: frame_type :: (payload ++ [crc])

/-- `bytearray.find sync_byte`: index of the first occurrence, `none` when
absent. -/
def findByte (s : Nat) : List Nat → Option Nat
  | [] => none
  | b :: t => if b = s then some 0 else (findByte s t).map (· + 1)

/-- The sync scan of `CRSFParser.add_data` (lines 100-105): try each value
of `VALID_SYNC_BYTES` in order with `find`, keeping the first value that
occurs anywhere in the buffer. -/
def findSync (b : List Nat) : Option Nat :=
  match findByte 0xC8 b with
  | some i => some i
  | none =>
    match findByte 0xEA b with
    | some i => some i
    | none =>
      match findByte 0xEC b with
      | some i => some i
      | none => findByte 0xEE b

/-- The outcome of one `CRSFParser.add_data` loop run: `ok frames buffer`
is a normal return (the `frames` list and the final `self.buffer`), and
`attrError buffer` is the uncaught `AttributeError` escaping with
`self.buffer` in the given state. -/
inductive ParseResult where
  | ok : List Frame → List Nat → ParseResult
  | attrError : List Nat → ParseResult
  deriving Repr, DecidableEq

/-- The `while` loop of `CRSFParser.add_data` over the accumulated buffer.
Each iteration either exits or drops at least one byte, so the recursion
is on the buffer length. Two points of fidelity:

* every index read is guarded by a preceding length check (`buffer[1]`
  behind `len ≥ 2`), so the `except IndexError` handler never fires;
* when a complete length-valid candidate is present (the branch at lines
  132-154), the code reaches `crc_calculated = self.calc_crc(crc_payload)`
  (line 138) — but `self` is the `CRSFParser`, which has no `calc_crc`
  attribute (`calc_crc` is a static method of `CRSFFrame`), so Python
  raises `AttributeError`; `except IndexError` does not catch it, and it
  escapes `add_data` with the buffer still holding the stripped candidate
  (the garbage strip at line 114 already happened, the consumption at
  line 154 never does). None of the CRC-check / frame-construction code
  after line 138 is reachable, so a normal return can only carry the
  frames accumulated before — always none. -/
def processBuffer (b : List Nat) : ParseResult :=
  if h : 2 < b.length then
    match findSync b with
    | none => .ok [] b
    | some k =>
      let b' := b.drop k
      if b'.length < 2 then .ok [] b'
      else
        let frame_len := b'.getD 1 0
        if frame_len < 2 ∨ 62 < frame_len then
          processBuffer (b'.drop 1)
        else if b'.length < frame_len + 2 then .ok [] b'
        else .attrError b'
  else .ok [] b
termination_by b.length
decreasing_by
  simp only [List.length_drop]
  omega

/-- The parser state: `CRSFParser.buffer`. -/
structure Parser where
  buffer : List Nat
  deriving Repr, DecidableEq

/-- `CRSFParser.__init__`: empty buffer. -/
def initParser : Parser := ⟨[]⟩

/-- Outcome of one `add_data` call as its caller sees it: a normal return
with the frames and the mutated parser, or an escaped `AttributeError`
leaving the parser mutated. -/
inductive AddDataResult where
  | ok : List Frame → Parser → AddDataResult
  | attrError : Parser → AddDataResult
  deriving Repr, DecidableEq

/-- `CRSFParser.add_data`: append the chunk to the buffer, run the scan
loop. Because `self.buffer` is mutated in place, the parser keeps the
loop's buffer state even when the `AttributeError` escapes. -/
def addData (p : Parser) (data : List Nat) : AddDataResult :=
  match processBuffer (p.buffer ++ data) with
  | .ok fs b => .ok fs ⟨b⟩
  | .attrError b => .attrError ⟨b⟩

/-- Outcome of feeding a chunk sequence: either every call returned
normally (with each call's frame list), or some call raised; the raise
case carries the frame lists of the calls that returned normally before
it, and the parser state after the raising call. -/
inductive FeedResult where
  | ok : List (List Frame) → Parser → FeedResult
  | attrError : List (List Frame) → Parser → FeedResult
  deriving Repr, DecidableEq

/-- Feed a sequence of chunks to one parser, stopping at the first call
that raises. -/
def feedAll (p : Parser) (chunks : List (List Nat)) : FeedResult :=
  match chunks with
  | [] => .ok [] p
  | c :: cs =>
    match addData p c with
    | .attrError p' => .attrError [] p'
    | .ok fs p' =>
      match feedAll p' cs with
      | .ok rest pf => .ok (fs :: rest) pf
      | .attrError rest pf => .attrError (fs :: rest) pf

/-- The sync bytes the scan loop tries before it reaches `s`: they shadow
frames whose sync byte is `s` whenever they occur anywhere in the buffer. -/
def priorSyncs (s : Nat) : List Nat :=
  VALID_SYNC_BYTES.takeWhile (fun x => x ≠ s)

lemma findByte_cons_self (s : Nat) (t : List Nat) :
    findByte s (s :: t) = some 0 := by
  simp [findByte]

lemma findByte_eq_none (s : Nat) {l : List Nat} (h : s ∉ l) :
    findByte s l = none := by
  induction l with
  | nil => rfl
  | cons a t ih =>
    simp only [List.mem_cons, not_or] at h
    simp [findByte, Ne.symm h.1, ih h.2]

/-- When the buffer starts with sync byte `s` and no sync byte the loop
tries earlier occurs in it, the scan lands on index 0. -/
lemma findSync_cons_sync {s : Nat} (hs : s ∈ VALID_SYNC_BYTES)
    {l : List Nat} (hp : ∀ s' ∈ priorSyncs s, s' ∉ s :: l) :
    findSync (s :: l) = some 0 := by
  fin_cases hs
  · simp [findSync, findByte]
  · have h1 : (0xC8 : Nat) ∉ (0xEA : Nat) :: l := hp 0xC8 (by decide)
    simp [findSync, findByte_eq_none _ h1, findByte_cons_self]
  · have h1 : (0xC8 : Nat) ∉ (0xEC : Nat) :: l := hp 0xC8 (by decide)
    have h2 : (0xEA : Nat) ∉ (0xEC : Nat) :: l := hp 0xEA (by decide)
    simp [findSync, findByte_eq_none _ h1, findByte_eq_none _ h2,
      findByte_cons_self]
  · have h1 : (0xC8 : Nat) ∉ (0xEE : Nat) :: l := hp 0xC8 (by decide)
    have h2 : (0xEA : Nat) ∉ (0xEE : Nat) :: l := hp 0xEA (by decide)
    have h3 : (0xEC : Nat) ∉ (0xEE : Nat) :: l := hp 0xEC (by decide)
    simp [findSync, findByte_eq_none _ h1, findByte_eq_none _ h2,
      findByte_eq_none _ h3, findByte_cons_self]

lemma processBuffer_short {b : List Nat} (h : ¬ 2 < b.length) :
    processBuffer b = .ok [] b := by
  rw [processBuffer]
  simp [h]

lemma processBuffer_noSync {b : List Nat} (h : findSync b = none) :
    processBuffer b = .ok [] b := by
  rw [processBuffer]
  by_cases h3 : 2 < b.length
  · simp [h3, h]
  · simp [h3]

/-- `build` with the length field written in normal form. -/
lemma build_eq (s ft : Nat) (pl : List Nat) :
    build s ft pl = s :: (pl.length + 2) :: ft :: (pl ++ [calc_crc (ft :: pl)]) := by
  simp only [build]
  have h : 1 + pl.length + 1 = pl.length + 2 := by omega
  rw [h]

/-- A buffer whose scan lands on index 0 and which holds a complete
length-valid candidate frame reaches line 138 and raises
`AttributeError`, leaving the buffer untouched from that point on. -/
lemma processBuffer_complete {b : List Nat} (h3 : 2 < b.length)
    (hf : findSync b = some 0)
    (hfl1 : 2 ≤ b.getD 1 0) (hfl2 : b.getD 1 0 ≤ 62)
    (hfull : b.getD 1 0 + 2 ≤ b.length) :
    processBuffer b = .attrError b := by
  rw [processBuffer, dif_pos h3, hf]
  simp only [List.drop_zero]
  rw [if_neg (by omega), if_neg (by omega), if_neg (by omega)]

/-- A proper prefix of a well-formed frame whose sync byte is not shadowed
by an earlier-priority sync byte is left untouched: the call returns
normally with no frame and no byte consumed. -/
lemma processBuffer_prefix (s ft : Nat) (pl p : List Nat)
    (hs : s ∈ VALID_SYNC_BYTES)
    (hp : ∀ s' ∈ priorSyncs s, s' ∉ build s ft pl)
    (hlen : pl.length ≤ 60)
    (hpre : p <+: build s ft pl)
    (hne : p.length < (build s ft pl).length) :
    processBuffer p = .ok [] p := by
  by_cases h3 : 2 < p.length
  · have hpe : p = (build s ft pl).take p.length := by
      obtain ⟨r, hr⟩ := hpre
      rw [← hr, List.take_left]
    obtain ⟨m, hm⟩ : ∃ m, p.length = m + 3 := ⟨p.length - 3, by omega⟩
    have hpform : p = s :: (pl.length + 2) :: ft ::
        ((pl ++ [calc_crc (ft :: pl)]).take m) := by
      rw [hpe, hm, build_eq]
      rfl
    have hmem : ∀ s' ∈ priorSyncs s,
        s' ∉ s :: (pl.length + 2) :: ft :: ((pl ++ [calc_crc (ft :: pl)]).take m) := by
      intro s' hs' hmem'
      exact hp s' hs' (hpre.sublist.subset (hpform ▸ hmem'))
    have hf : findSync (s :: (pl.length + 2) :: ft ::
        ((pl ++ [calc_crc (ft :: pl)]).take m)) = some 0 :=
      findSync_cons_sync hs hmem
    have hplen : p.length = ((pl ++ [calc_crc (ft :: pl)]).take m).length + 3 := by
      rw [hpform]
      simp
    have hblen : (build s ft pl).length = pl.length + 4 := by
      rw [build_eq]
      simp
    rw [hpform, processBuffer]
    rw [dif_pos (by rw [← hpform]; exact h3)]
    rw [hf]
    simp only [List.drop_zero]
    rw [if_neg (by simp)]
    have hgd1 : (s :: (pl.length + 2) :: ft ::
        ((pl ++ [calc_crc (ft :: pl)]).take m)).getD 1 0 = pl.length + 2 := rfl
    rw [hgd1]
    rw [if_neg (by omega)]
    rw [if_pos (by simp only [List.length_cons]; omega)]
  · exact processBuffer_short h3

/-- `processBuffer_complete` stated against `build` itself: the parser
never returns a complete well-formed frame — it raises at the dead
`self.calc_crc` call with the whole frame still buffered. -/
lemma processBuffer_build (s ft : Nat) (pl : List Nat)
    (hs : s ∈ VALID_SYNC_BYTES)
    (hp : ∀ s' ∈ priorSyncs s, s' ∉ build s ft pl)
    (hlen : pl.length ≤ 60) :
    processBuffer (build s ft pl) = .attrError (build s ft pl) := by
  have hp' : ∀ s' ∈ priorSyncs s,
      s' ∉ s :: (pl.length + 2) :: ft :: (pl ++ [calc_crc (ft :: pl)]) := by
    intro s' hs' hmem
    exact hp s' hs' (by rw [build_eq]; exact hmem)
  have hf : findSync (build s ft pl) = some 0 := by
    rw [build_eq]
    exact findSync_cons_sync hs hp'
  have hblen : (build s ft pl).length = pl.length + 4 := by
    rw [build_eq]
    simp
  have hgd : (build s ft pl).getD 1 0 = pl.length + 2 := by
    rw [build_eq]
    rfl
  exact processBuffer_complete (by omega) hf (by omega) (by omega) (by omega)

/-- The scan loop of `CRSFParser.add_data` again, now indexed by the
number of loop iterations still allowed (`none` = the iteration budget ran
out mid-loop). One unit of fuel is one pass through the `while` body, so
this function makes the claim "every iteration drops at least one byte or
exits" checkable: `b.length + 1` iterations always suffice, whether the
call ends in a normal return or in the line-138 `AttributeError`. -/
def processBufferF : Nat → List Nat → Option ParseResult
  | 0, _ => none
  | fuel + 1, b =>
    if 2 < b.length then
      match findSync b with
      | none => some (.ok [] b)
      | some k =>
        let b' := b.drop k
        if b'.length < 2 then some (.ok [] b')
        else
          let frame_len := b'.getD 1 0
          if frame_len < 2 ∨ 62 < frame_len then
            processBufferF fuel (b'.drop 1)
          else if b'.length < frame_len + 2 then some (.ok [] b')
          else some (.attrError b')
    else some (.ok [] b)

/-- With more iterations allowed than bytes in the buffer, the fuelled
loop finishes and computes exactly what the loop computes: every
iteration that continues drops at least one byte. -/
lemma processBufferF_eq :
    ∀ (fuel : Nat) (b : List Nat), b.length < fuel →
      processBufferF fuel b = some (processBuffer b) := by
  intro fuel
  induction fuel with
  | zero => intro b h; omega
  | succ n ih =>
    intro b h
    rw [processBuffer]
    simp only [processBufferF]
    by_cases h2 : 2 < b.length
    · rw [if_pos h2, dif_pos h2]
      cases hfs : findSync b with
      | none => simp
      | some k =>
        simp only []
        by_cases hlt : (b.drop k).length < 2
        · rw [if_pos hlt, if_pos hlt]
        · rw [if_neg hlt, if_neg hlt]
          by_cases hfl : (b.drop k).getD 1 0 < 2 ∨ 62 < (b.drop k).getD 1 0
          · rw [if_pos hfl, if_pos hfl]
            exact ih _ (by simp only [List.length_drop]; omega)
          · rw [if_neg hfl, if_neg hfl]
            by_cases hfull : (b.drop k).length < (b.drop k).getD 1 0 + 2
            · rw [if_pos hfull, if_pos hfull]
            · rw [if_neg hfull, if_neg hfull]
    · rw [if_neg h2, dif_neg h2]

/-- Transfer concrete computations of the fuelled loop to the loop. -/
lemma processBuffer_eval {b : List Nat} {v : ParseResult}
    (h : processBufferF (b.length + 1) b = some v) : processBuffer b = v := by
  have h2 := processBufferF_eq (b.length + 1) b (by omega)
  rw [h] at h2
  exact (Option.some.inj h2).symm

/-- C1, counterexample. The frame with sync byte `0xEA`, type `0x02` and
payload `[0xC8]` is valid (recognized sync byte, payload within limits),
but parsing its own encoding yields no frame: the scan loop tries
`find(0xC8)` first and locks onto the `0xC8` payload byte at index 3,
discards the real frame start, and returns normally with no frame and
two of the frame's bytes consumed. The claimed round-trip fails at this
input — and `frame_roundtrip` shows the remaining inputs fare no better:
there the call raises instead of returning a frame. -/
theorem frame_roundtrip_counterexample :
    (0xEA : Nat) ∈ VALID_SYNC_BYTES ∧ ([0xC8] : List Nat).length ≤ 60 ∧
      addData initParser (build 0xEA 0x02 [0xC8]) = .ok [] ⟨[77]⟩ := by
  refine ⟨by decide, by decide, ?_⟩
  simp only [addData, initParser, List.nil_append]
  rw [processBuffer_eval (v := .ok [] [77]) (by decide)]

/-- C1, amended: the round-trip never reproduces a frame, because
`add_data` cannot return one. For every frame with a recognized sync
byte and payload within the size limit whose encoding contains no sync
byte that the scan loop tries earlier than the frame's own, feeding
`build`'s output to `add_data` raises `AttributeError` at the dead
`self.calc_crc` call (crsf_protocol.py:138 — `CRSFParser` has no
`calc_crc`, and only `IndexError` is caught), with the complete encoded
frame still in the buffer; frames outside that proviso are lost to the
priority scan instead (see the counterexample). `build` also emits no
separate destination/origin bytes — extended-type addressing travels
inside the payload. -/
theorem frame_roundtrip (s ft : Nat) (pl : List Nat)
    (hs : s ∈ VALID_SYNC_BYTES) (hft : ft < 256) (hbytes : ∀ b ∈ pl, b < 256)
    (hlen : pl.length ≤ 60)
    (hp : ∀ s' ∈ priorSyncs s, s' ∉ build s ft pl) :
    addData initParser (build s ft pl) = .attrError ⟨build s ft pl⟩ := by
  simp only [addData, initParser, List.nil_append,
    processBuffer_build s ft pl hs hp hlen]

/-- C1, witness: feeding the encoding of a concrete `LINK_STATISTICS`
frame raises, with the frame still buffered. -/
theorem frame_roundtrip_witness :
    (0xC8 : Nat) ∈ VALID_SYNC_BYTES ∧
      addData initParser (build 0xC8 0x14 [80, 0, 95, 250, 1, 2, 20, 0, 90, 6]) =
        .attrError ⟨build 0xC8 0x14 [80, 0, 95, 250, 1, 2, 20, 0, 90, 6]⟩ :=
  ⟨by decide, frame_roundtrip 0xC8 0x14 [80, 0, 95, 250, 1, 2, 20, 0, 90, 6]
    (by decide) (by decide) (by decide) (by decide) (by decide)⟩

/-- Feeding chunks whose accumulated bytes stay a proper prefix of one
well-formed frame: every call returns normally with no frame, consuming
nothing — the buffer ends up holding exactly everything fed so far. -/
lemma feedAll_partial (s ft : Nat) (pl : List Nat)
    (hs : s ∈ VALID_SYNC_BYTES)
    (hp : ∀ s' ∈ priorSyncs s, s' ∉ build s ft pl)
    (hlen : pl.length ≤ 60) :
    ∀ (chunks : List (List Nat)) (pre : List Nat),
      (∃ t, (pre ++ chunks.flatten) ++ t = build s ft pl) →
      (pre ++ chunks.flatten).length < (build s ft pl).length →
      feedAll ⟨pre⟩ chunks =
        .ok (chunks.map fun _ => ([] : List Frame)) ⟨pre ++ chunks.flatten⟩ := by
  intro chunks
  induction chunks with
  | nil =>
    intro pre _ _
    simp [feedAll]
  | cons c cs ih =>
    intro pre hpre hlt
    obtain ⟨t, ht⟩ := hpre
    have hstep : processBuffer (pre ++ c) = .ok [] (pre ++ c) := by
      apply processBuffer_prefix s ft pl _ hs hp hlen
      · exact ⟨cs.flatten ++ t, by rw [← ht]; simp [List.append_assoc]⟩
      · have := congrArg List.length ht
        simp only [List.length_append, List.flatten_cons] at this hlt ⊢
        omega
    simp only [feedAll, addData, hstep, List.flatten_cons, List.map_cons]
    rw [ih (pre ++ c)
      ⟨t, by rw [← ht]; simp [List.append_assoc]⟩
      (by simp only [List.length_append, List.flatten_cons] at hlt ⊢; omega)]
    simp [List.append_assoc]

/-- Feeding chunks that concatenate to exactly one well-formed frame:
every call but the last returns normally with no frame, and the call
supplying the final byte raises `AttributeError` with the whole frame
still in the buffer. -/
lemma feedAll_build (s ft : Nat) (pl : List Nat)
    (hs : s ∈ VALID_SYNC_BYTES)
    (hp : ∀ s' ∈ priorSyncs s, s' ∉ build s ft pl)
    (hlen : pl.length ≤ 60) :
    ∀ (chunks : List (List Nat)) (pre : List Nat),
      chunks ≠ [] → (∀ c ∈ chunks, c ≠ []) →
      pre ++ chunks.flatten = build s ft pl →
      feedAll ⟨pre⟩ chunks =
        .attrError (chunks.dropLast.map fun _ => ([] : List Frame))
          ⟨build s ft pl⟩ := by
  intro chunks
  induction chunks with
  | nil => intro pre hne _ _; exact absurd rfl hne
  | cons c cs ih =>
    intro pre _ hne hjoin
    by_cases hcs : cs = []
    · subst hcs
      simp only [List.flatten_cons, List.flatten_nil, List.append_nil] at hjoin
      simp only [feedAll, addData, hjoin,
        processBuffer_build s ft pl hs hp hlen]
      simp
    · have hjoin' : (pre ++ c) ++ cs.flatten = build s ft pl := by
        rw [← hjoin]
        simp [List.append_assoc]
      have hcsne : cs.flatten ≠ [] := by
        obtain ⟨d, ds, rfl⟩ := List.exists_cons_of_ne_nil hcs
        have hd : d ≠ [] := hne d (by simp)
        simp only [List.flatten_cons, ne_eq, List.append_eq_nil, not_and]
        intro hd'
        exact absurd hd' hd
      have hstep : processBuffer (pre ++ c) = .ok [] (pre ++ c) := by
        apply processBuffer_prefix s ft pl _ hs hp hlen
        · exact ⟨cs.flatten, hjoin'⟩
        · have := congrArg List.length hjoin'
          simp only [List.length_append] at this ⊢
          have hfl : 0 < cs.flatten.length := List.length_pos.mpr hcsne
          omega
      simp only [feedAll, addData, hstep]
      rw [ih (pre ++ c) hcs (fun d hd => hne d (by simp [hd])) hjoin']
      rw [List.dropLast_cons_of_ne_nil hcs]
      simp

/-- C3, counterexample. The valid frame `build 0xEA 0x02 [0xC8]` split
into the two chunks `[0xEA, 3]` and `[0x02, 0xC8, 77]` is never
returned: both calls return normally with no frame, because on the final
call the scan locks onto the `0xC8` payload byte and shreds the frame.
The claim's "returned exactly once, by the call supplying the final
byte" fails, and bytes of the frame are consumed before delivery
completes (only `[77]` stays buffered). -/
theorem partial_delivery_counterexample :
    ([[0xEA, 3], [0x02, 0xC8, 77]] : List (List Nat)).flatten =
        build 0xEA 0x02 [0xC8] ∧
      feedAll initParser [[0xEA, 3], [0x02, 0xC8, 77]] = .ok [[], []] ⟨[77]⟩ := by
  constructor
  · decide
  · have h1 : processBuffer [0xEA, 3] = .ok [] [0xEA, 3] :=
      processBuffer_eval (by decide)
    have h2 : processBuffer [0xEA, 3, 0x02, 0xC8, 77] = .ok [] [77] :=
      processBuffer_eval (by decide)
    simp [feedAll, addData, initParser, h1, h2]

/-- C3, amended: the frame is never yielded at all. For a valid frame
whose encoded bytes contain no sync byte that the scan loop tries
earlier than the frame's own sync byte, split across any sequence of
nonempty chunks: every call before the one supplying the final byte
returns no frame and consumes no byte (after it the buffer holds exactly
the bytes fed so far), and the call supplying the final byte does not
return the frame — it raises `AttributeError` at the dead
`self.calc_crc` call (crsf_protocol.py:138) with the complete frame
still buffered. -/
theorem partial_delivery (s ft : Nat) (pl : List Nat) (chunks : List (List Nat))
    (hs : s ∈ VALID_SYNC_BYTES) (hft : ft < 256) (hbytes : ∀ b ∈ pl, b < 256)
    (hlen : pl.length ≤ 60)
    (hp : ∀ s' ∈ priorSyncs s, s' ∉ build s ft pl)
    (hne : chunks ≠ []) (hcne : ∀ c ∈ chunks, c ≠ [])
    (hjoin : chunks.flatten = build s ft pl) :
    feedAll initParser chunks =
        .attrError (chunks.dropLast.map fun _ => ([] : List Frame))
          ⟨build s ft pl⟩ ∧
      ∀ n, n + 1 < chunks.length →
        feedAll initParser (chunks.take (n + 1)) =
          .ok ((chunks.take (n + 1)).map fun _ => ([] : List Frame))
            ⟨(chunks.take (n + 1)).flatten⟩ := by
  constructor
  · exact feedAll_build s ft pl hs hp hlen chunks [] hne hcne (by simpa using hjoin)
  · intro n hn
    have hsplit : (chunks.take (n + 1)).flatten ++ (chunks.drop (n + 1)).flatten =
        build s ft pl := by
      rw [← hjoin, ← List.flatten_append, List.take_append_drop]
    have hdropne : (chunks.drop (n + 1)).flatten ≠ [] := by
      have hlen' : chunks.drop (n + 1) ≠ [] := by
        intro hnil
        have := congrArg List.length hnil
        simp only [List.length_drop, List.length_nil] at this
        omega
      obtain ⟨d, ds, hd⟩ := List.exists_cons_of_ne_nil hlen'
      have hdne : d ≠ [] := hcne d (by
        have : d ∈ chunks.drop (n + 1) := by rw [hd]; simp
        exact List.mem_of_mem_drop this)
      rw [hd]
      simp only [List.flatten_cons, ne_eq, List.append_eq_nil, not_and]
      intro hd'
      exact absurd hd' hdne
    exact feedAll_partial s ft pl hs hp hlen (chunks.take (n + 1)) []
      ⟨(chunks.drop (n + 1)).flatten, by simpa using hsplit⟩
      (by
        have := congrArg List.length hsplit
        simp only [List.length_append] at this
        have := List.length_pos.mpr hdropne
        simp only [List.nil_append]
        omega)

set_option maxRecDepth 2048 in
/-- C3, witness: a concrete frame split into two chunks after byte 4 —
the first call returns nothing, the second raises with the whole frame
buffered. -/
theorem partial_delivery_witness :
    feedAll initParser
        [(build 0xC8 0x16 [1, 2, 3]).take 4, (build 0xC8 0x16 [1, 2, 3]).drop 4] =
      .attrError [[]] ⟨build 0xC8 0x16 [1, 2, 3]⟩ := by
  have h := (partial_delivery 0xC8 0x16 [1, 2, 3]
    [(build 0xC8 0x16 [1, 2, 3]).take 4, (build 0xC8 0x16 [1, 2, 3]).drop 4]
    (by decide) (by decide) (by decide) (by decide) (by decide) (by decide)
    (by decide) (by decide)).1
  rw [h]
  decide

lemma findByte_append_none {s : Nat} {g b : List Nat}
    (h : findByte s (g ++ b) = none) : findByte s b = none := by
  induction g with
  | nil => exact h
  | cons a t ih =>
    simp only [List.cons_append, findByte, List.append_eq] at h
    by_cases ha : a = s
    · simp [ha] at h
    · rw [if_neg ha] at h
      exact ih (Option.map_eq_none'.mp h)

lemma findByte_append_len {s : Nat} {g b : List Nat}
    (h : findByte s (g ++ b) = some g.length) : findByte s b = some 0 := by
  induction g with
  | nil => simpa using h
  | cons a t ih =>
    simp only [List.cons_append, findByte, List.length_cons, List.append_eq] at h
    by_cases ha : a = s
    · rw [if_pos ha] at h
      simp at h
    · rw [if_neg ha] at h
      cases hx : findByte s (t ++ b) with
      | none => rw [hx] at h; simp at h
      | some j =>
        rw [hx] at h
        simp only [Option.map_some', Option.some.injEq] at h
        have hj : j = t.length := by omega
        exact ih (by rw [hx, hj])

/-- If the scan over a buffer with `g` prepended lands exactly at the end
of `g`, then the scan over the bare buffer lands at its start. -/
lemma findSync_append_len {g b : List Nat}
    (h : findSync (g ++ b) = some g.length) : findSync b = some 0 := by
  unfold findSync at h ⊢
  cases h1 : findByte 0xC8 (g ++ b) with
  | some i =>
    rw [h1] at h
    simp only [Option.some.injEq] at h
    subst h
    rw [findByte_append_len h1]
  | none =>
    rw [h1] at h
    simp only [] at h
    rw [findByte_append_none h1]
    simp only []
    cases h2 : findByte 0xEA (g ++ b) with
    | some i =>
      rw [h2] at h
      simp only [Option.some.injEq] at h
      subst h
      rw [findByte_append_len h2]
    | none =>
      rw [h2] at h
      simp only [] at h
      rw [findByte_append_none h2]
      simp only []
      cases h3 : findByte 0xEC (g ++ b) with
      | some i =>
        rw [h3] at h
        simp only [Option.some.injEq] at h
        subst h
        rw [findByte_append_len h3]
      | none =>
        rw [h3] at h
        simp only [] at h
        rw [findByte_append_none h3]
        simp only []
        exact findByte_append_len h

/-- C2, counterexample, refuting both halves of the claim at concrete
inputs. First: appending the chunk `[1, 2, 3]` (no recognized sync byte
anywhere) leaves the whole buffer in place — `add_data` keeps the
unrecognized bytes instead of dropping them. Second: the chunk
`[0xEA, 9, 9, 0xC8, 9, 9]` starts with the recognized sync byte `0xEA`,
so the earliest-positioned recognized sync byte is at index 0 and the
claim says no byte may be discarded — yet the parser discards the first
three bytes, because `find(0xC8)` is tried before `find(0xEA)` and lands
on index 3. -/
theorem resync_counterexample :
    (findSync ([1, 2, 3] : List Nat) = none ∧
      ([1, 2, 3] : List Nat) ≠ [] ∧
      addData initParser [1, 2, 3] = .ok [] ⟨[1, 2, 3]⟩) ∧
    (([0xEA, 9, 9, 0xC8, 9, 9] : List Nat).getD 0 0 = 0xEA ∧
      (0xEA : Nat) ∈ VALID_SYNC_BYTES ∧
      addData initParser [0xEA, 9, 9, 0xC8, 9, 9] = .ok [] ⟨[0xC8, 9, 9]⟩) := by
  refine ⟨⟨by decide, by decide, ?_⟩, by decide, by decide, ?_⟩
  · simp only [addData, initParser, List.nil_append]
    rw [processBuffer_eval (v := .ok [] [1, 2, 3]) (by decide)]
  · simp only [addData, initParser, List.nil_append]
    rw [processBuffer_eval (v := .ok [] [0xC8, 9, 9]) (by decide)]

/-- C2, amended: when no recognized sync byte occurs in the buffer after
appending the chunk, the parser stops and keeps the buffer unchanged
(it does not drop it); when the sync scan — which tries each sync byte
value in the order 0xC8, 0xEA, 0xEC, 0xEE over the whole buffer, so it
picks the first occurrence of the highest-priority value present, not
the earliest-positioned sync byte — lands past a prefix, exactly that
prefix is discarded: the parse continues as if only the bytes from the
scan position onward were in the buffer. -/
theorem resync_scan (buf data g b : List Nat)
    (h1 : findSync (buf ++ data) = none)
    (h2 : 2 < b.length)
    (h3 : findSync (g ++ b) = some g.length) :
    addData ⟨buf⟩ data = .ok [] ⟨buf ++ data⟩ ∧
      processBuffer (g ++ b) = processBuffer b := by
  constructor
  · simp only [addData, processBuffer_noSync h1]
  · have hfb : findSync b = some 0 := findSync_append_len h3
    have hlen : 2 < (g ++ b).length := by
      simp only [List.length_append]
      omega
    conv_lhs => rw [processBuffer]
    conv_rhs => rw [processBuffer]
    rw [dif_pos hlen, dif_pos h2, h3, hfb]
    simp only [List.drop_left, List.drop_zero]

/-- C2, witness: a garbage byte before a sync byte is discarded, and a
sync-free chunk is kept. -/
theorem resync_scan_witness :
    findSync (([] : List Nat) ++ [1, 2, 3]) = none ∧
      (addData ⟨[]⟩ [1, 2, 3] = .ok [] ⟨[] ++ [1, 2, 3]⟩ ∧
        processBuffer ([1] ++ [0xC8, 0, 0, 0]) = processBuffer [0xC8, 0, 0, 0]) :=
  ⟨by decide, resync_scan [] [1, 2, 3] [1] [0xC8, 0, 0, 0]
    (by decide) (by decide) (by decide)⟩

/-- C10: the scan loop of `add_data` terminates on every finite buffer
and chunk: with one unit of fuel per iteration,
`(buffer ++ chunk).length + 1` iterations always complete and compute
exactly the call's outcome — a normal return or the line-138
`AttributeError` — because every iteration either removes at least one
byte (garbage discard, single-byte drop on invalid length) or exits the
loop (no sync found, too few bytes, incomplete frame, or the raise on a
complete candidate; the frame-consuming iteration the source contains is
never completed, since the raise comes first). -/
theorem addData_terminates (p : Parser) (data : List Nat) :
    processBufferF ((p.buffer ++ data).length + 1) (p.buffer ++ data) =
      some (processBuffer (p.buffer ++ data)) := by
  rw [processBufferF_eq _ _ (by omega)]

/-- `crc8_table` from `channel_parser.py`: the CRC8 lookup table for
polynomial `0xD5`. -/
def crc8_table : List Nat := [
  0x00, 0xD5, 0x7F, 0xAA, 0xFE, 0x2B, 0x81, 0x54, 0x29, 0xFC, 0x56, 0x83, 0xD7, 0x02, 0xA8, 0x7D,
  0x52, 0x87, 0x2D, 0xF8, 0xAC, 0x79, 0xD3, 0x06, 0x7B, 0xAE, 0x04, 0xD1, 0x85, 0x50, 0xFA, 0x2F,
  0xA4, 0x71, 0xDB, 0x0E, 0x5A, 0x8F, 0x25, 0xF0, 0x8D, 0x58, 0xF2, 0x27, 0x73, 0xA6, 0x0C, 0xD9,
  0xF6, 0x23, 0x89, 0x5C, 0x08, 0xDD, 0x77, 0xA2, 0xDF, 0x0A, 0xA0, 0x75, 0x21, 0xF4, 0x5E, 0x8B,
  0x9D, 0x48, 0xE2, 0x37, 0x63, 0xB6, 0x1C, 0xC9, 0xB4, 0x61, 0xCB, 0x1E, 0x4A, 0x9F, 0x35, 0xE0,
  0xCF, 0x1A, 0xB0, 0x65, 0x31, 0xE4, 0x4E, 0x9B, 0xE6, 0x33, 0x99, 0x4C, 0x18, 0xCD, 0x67, 0xB2,
  0x39, 0xEC, 0x46, 0x93, 0xC7, 0x12, 0xB8, 0x6D, 0x10, 0xC5, 0x6F, 0xBA, 0xEE, 0x3B, 0x91, 0x44,
  0x6B, 0xBE, 0x14, 0xC1, 0x95, 0x40, 0xEA, 0x3F, 0x42, 0x97, 0x3D, 0xE8, 0xBC, 0x69, 0xC3, 0x16,
  0xEF, 0x3A, 0x90, 0x45, 0x11, 0xC4, 0x6E, 0xBB, 0xC6, 0x13, 0xB9, 0x6C, 0x38, 0xED, 0x47, 0x92,
  0xBD, 0x68, 0xC2, 0x17, 0x43, 0x96, 0x3C, 0xE9, 0x94, 0x41, 0xEB, 0x3E, 0x6A, 0xBF, 0x15, 0xC0,
  0x4B, 0x9E, 0x34, 0xE1, 0xB5, 0x60, 0xCA, 0x1F, 0x62, 0xB7, 0x1D, 0xC8, 0x9C, 0x49, 0xE3, 0x36,
  0x19, 0xCC, 0x66, 0xB3, 0xE7, 0x32, 0x98, 0x4D, 0x30, 0xE5, 0x4F, 0x9A, 0xCE, 0x1B, 0xB1, 0x64,
  0x72, 0xA7, 0x0D, 0xD8, 0x8C, 0x59, 0xF3, 0x26, 0x5B, 0x8E, 0x24, 0xF1, 0xA5, 0x70, 0xDA, 0x0F,
  0x20, 0xF5, 0x5F, 0x8A, 0xDE, 0x0B, 0xA1, 0x74, 0x09, 0xDC, 0x76, 0xA3, 0xF7, 0x22, 0x88, 0x5D,
  0xD6, 0x03, 0xA9, 0x7C, 0x28, 0xFD, 0x57, 0x82, 0xFF, 0x2A, 0x80, 0x55, 0x01, 0xD4, 0x7E, 0xAB,
  0x84, 0x51, 0xFB, 0x2E, 0x7A, 0xAF, 0x05, 0xD0, 0xAD, 0x78, 0xD2, 0x07, 0x53, 0x86, 0x2C, 0xF9]

/-- `crc8` from `channel_parser.py`: table-driven CRC folding
`crc = crc8_table[crc ^ byte]` over the data, starting from 0. -/
def crc8 (data : List Nat) : Nat :=
  data.foldl (fun crc b => crc8_table.getD (crc ^^^ b) 0) 0

set_option maxRecDepth 8192 in
/-- Every table entry is the eight-shift-step of its index. -/
lemma crc8_table_spec : ∀ i, i < 256 → crc8_table.getD i 0 = crcByteStep 0 i := by
  decide

lemma crcShiftStep_lt (c : Nat) : crcShiftStep c < 256 := by
  unfold crcShiftStep
  split <;> exact Nat.lt_succ_of_le Nat.and_le_right

lemma crcByteStep_lt (c b : Nat) : crcByteStep c b < 256 := by
  simp only [crcByteStep, Function.comp]
  exact crcShiftStep_lt _

lemma crcByteStep_eq_zero_xor (c b : Nat) :
    crcByteStep c b = crcByteStep 0 (c ^^^ b) := by
  simp [crcByteStep]

lemma crc8_fold_eq (data : List Nat) : ∀ c, c < 256 → (∀ b ∈ data, b < 256) →
    data.foldl (fun crc b => crc8_table.getD (crc ^^^ b) 0) c =
      data.foldl crcByteStep c := by
  induction data with
  | nil => intros; rfl
  | cons x xs ih =>
    intro c hc hb
    simp only [List.foldl_cons]
    have hx : x < 256 := hb x (by simp)
    have hxor : c ^^^ x < 256 := by
      have := Nat.xor_lt_two_pow (n := 8) (by simpa using hc) (by simpa using hx)
      simpa using this
    rw [crc8_table_spec (c ^^^ x) hxor, ← crcByteStep_eq_zero_xor]
    exact ih (crcByteStep c x) (crcByteStep_lt c x) fun b hb' => hb b (by simp [hb'])

/-- C9: on every finite byte string, the table-driven `crc8` of
`channel_parser.py` agrees with the bit-by-bit `CRSFFrame.calc_crc` of
`crsf_protocol.py`. -/
theorem crc8_eq_calc_crc (data : List Nat) (hb : ∀ b ∈ data, b < 256) :
    crc8 data = calc_crc data := by
  unfold crc8 calc_crc
  exact crc8_fold_eq data 0 (by norm_num) hb

/-- C9, witness: both CRC implementations on the bytes the frame codec
hashes for a `LINK_STATISTICS` frame. -/
theorem crc8_eq_calc_crc_witness :
    (∀ b ∈ ([0x14, 80, 0, 95, 250, 1, 2, 20, 0, 90, 6] : List Nat), b < 256) ∧
      crc8 [0x14, 80, 0, 95, 250, 1, 2, 20, 0, 90, 6] =
        calc_crc [0x14, 80, 0, 95, 250, 1, 2, 20, 0, 90, 6] :=
  ⟨by decide, crc8_eq_calc_crc [0x14, 80, 0, 95, 250, 1, 2, 20, 0, 90, 6] (by decide)⟩

/-- Big-endian byte-string to integer, as `struct.unpack('!Q'/'!H')`. -/
def beNat (l : List Nat) : Nat :=
  l.foldl (fun a b => a * 256 + b) 0

/-- A decoded UDP envelope. -/
structure Envelope where
  packet_type : Nat
  timestamp : Nat
  payload : List Nat
  deriving Repr, DecidableEq

/-- The datagram handling of `UDPTransport._rx_loop` (lines 155-170):
`none` models the two `continue` rejections (shorter than the 11-byte
header, or truncated payload) under which neither statistics nor
callbacks run; `some` models acceptance, after which the receive
statistics are updated and the payload is dispatched on `packet_type`.
`payload = data[11 : 11 + data_length]` is a Python slice, which
truncates at the end of the datagram. -/
def rxDecode (data : List Nat) : Option Envelope :=
  if data.length < 11 then none
  else
    let data_length := data.getD 9 0 * 256 + data.getD 10 0
    let payload := (data.drop 11).take data_length
    if payload.length ≠ data_length then none
    else some ⟨data.getD 0 0, beNat ((data.drop 1).take 8), payload⟩

/-- C4, counterexample. A 12-byte datagram declaring a zero-length
payload but carrying one trailing byte is accepted (statistics updated,
callback dispatched on the empty payload), although its declared length
differs from its actual trailing byte count — the claim says it must be
rejected. -/
theorem udp_decode_counterexample :
    (([0x01, 0, 0, 0, 0, 0, 0, 0, 0, 0, 0, 0x42] : List Nat).getD 9 0 * 256 +
        ([0x01, 0, 0, 0, 0, 0, 0, 0, 0, 0, 0, 0x42] : List Nat).getD 10 0 = 0) ∧
      ([0x01, 0, 0, 0, 0, 0, 0, 0, 0, 0, 0, 0x42] : List Nat).length - 11 = 1 ∧
      rxDecode [0x01, 0, 0, 0, 0, 0, 0, 0, 0, 0, 0, 0x42] = some ⟨0x01, 0, []⟩ := by
  decide

/-- C4, amended: the receive path accepts a datagram iff it is at least
11 bytes long and its declared big-endian payload length is *at most*
the number of trailing bytes; datagrams with more trailing bytes than
declared are accepted with the excess silently ignored, and only
datagrams that are too short or declare more than is present are
rejected with no statistics update and no callback. -/
theorem udp_decode_accepts (data : List Nat) :
    (rxDecode data).isSome ↔
      11 ≤ data.length ∧
        data.getD 9 0 * 256 + data.getD 10 0 ≤ data.length - 11 := by
  unfold rxDecode
  by_cases h1 : data.length < 11
  · simp only [if_pos h1, Option.isSome_none, Bool.false_eq_true, false_iff]
    omega
  · simp only [if_neg h1, List.length_take, List.length_drop]
    by_cases h2 : min (data.getD 9 0 * 256 + data.getD 10 0) (data.length - 11) ≠
        data.getD 9 0 * 256 + data.getD 10 0
    · simp only [if_pos h2, Option.isSome_none, Bool.false_eq_true, false_iff]
      omega
    · simp only [if_neg h2, Option.isSome_some, true_iff]
      push_neg at h2
      omega

/-- The receive-path statistics fields of `UDPTransport` that the
liveness logic reads and writes. -/
structure UDPStats where
  last_rx_time : ℚ
  connection_active : Bool
  deriving DecidableEq

/-- `UDPTransport._rx_loop` lines 169-170, on any accepted datagram at
time `now`: set `last_rx_time = now` and `connection_active = True`,
unconditionally. -/
def rxLive (_s : UDPStats) (now : ℚ) : UDPStats :=
  ⟨now, true⟩

/-- `UDPTransport._heartbeat_loop` lines 204-205, at a check running at
time `now`: clear `connection_active` only when strictly more than 15
seconds have passed since `last_rx_time`; otherwise leave the state
untouched. These checks run once per 5-second heartbeat cycle. -/
def heartbeatCheck (s : UDPStats) (now : ℚ) : UDPStats :=
  if 15 < now - s.last_rx_time then { s with connection_active := false } else s

/-- C6, counterexample. After a receive at time 0, a heartbeat check at
time 15 — exactly 15 seconds with no inbound envelope — leaves
`connection_active` true, while the claimed invariant
`connection_active = (now − last_rx_time < 15)` requires false: the code
only clears the flag at a heartbeat check and only for strictly more
than 15 elapsed seconds. -/
theorem liveness_counterexample :
    (heartbeatCheck (rxLive ⟨0, false⟩ 0) 15).connection_active = true ∧
      ¬ ((15 : ℚ) - 0 < 15) := by
  constructor
  · norm_num [heartbeatCheck, rxLive]
  · norm_num

/-- C6, amended: `connection_active` is set unconditionally true on every
accepted inbound envelope (with `last_rx_time` set to the receive time),
and it becomes false only at a heartbeat check — run every 5 seconds —
finding strictly more than 15 seconds since `last_rx_time`; at a check
exactly 15 seconds after the last receive it stays true, and it is not
recomputed between checks. -/
theorem liveness (s : UDPStats) (t1 t2 : ℚ) :
    (rxLive s t1).connection_active = true ∧
      (heartbeatCheck (rxLive s t1) t2).connection_active =
        (if 15 < t2 - t1 then false else true) := by
  refine ⟨rfl, ?_⟩
  by_cases h : 15 < t2 - t1 <;> simp [heartbeatCheck, rxLive, h]

/-- `SmartBridge._on_uart_data` (bridge_b.py lines 107-127): feed the
chunk to the UART-side parser; re-encode each returned frame with
`build` and forward it over UDP (lines 115-123); when no frame came
back, forward the raw chunk unmodified (lines 125-127). The call
`self.uart_parser.add_data(data)` at line 113 can raise `AttributeError`
(see `processBuffer`); the handler has no try block, so the exception
aborts it before any forwarding — the caller, `DualGPIO_UART._read_loop`
(lines 165-169), catches and logs it. Returns the parser state and the
UDP payloads sent, in order. The re-encode branch is kept as the source
has it, although `add_data` can never return a nonempty frame list.
(Statistics and telemetry side effects are modelled separately.) -/
def onUartData (p : Parser) (data : List Nat) : Parser × List (List Nat) :=
  if 0 < data.length then
    match addData p data with
    | .attrError p' => (p', [])
    | .ok fs p' =>
      if fs.isEmpty then (p', [data])
      else (p', fs.map fun f => build f.sync_byte f.frame_type f.payload)
  else (p, [])

/-- C5, counterexample. The chunk `[0xC8, 4, 0x16]` starts a
still-incomplete frame: the parser finds the sync byte (index 0) and
buffers the bytes — yet the bridge also forwards the raw chunk over UDP,
because the fallback fires whenever no complete frame came back, not
only when no sync byte was found. -/
theorem raw_forward_counterexample :
    findSync [0xC8, 4, 0x16] = some 0 ∧
      onUartData initParser [0xC8, 4, 0x16] =
        (⟨[0xC8, 4, 0x16]⟩, [[0xC8, 4, 0x16]]) := by
  refine ⟨by decide, ?_⟩
  simp only [onUartData, addData, initParser, List.nil_append]
  rw [processBuffer_eval (v := .ok [] [0xC8, 4, 0x16]) (by decide)]
  rfl

/-- C5, amended: the raw-forward fallback fires whenever `add_data`
returns normally with no frame — the only way it returns at all. In
particular every nonempty proper prefix of a valid frame fed as one
chunk is left buffered in the parser *and* forwarded raw over UDP at the
same time; and a chunk that completes a length-valid frame makes
`add_data` raise `AttributeError`, aborting the handler so that nothing
is forwarded for that chunk — a chunk is never forwarded re-encoded.
(Priority-safe frames as in C1; `n` is the prefix length.) -/
theorem raw_forward (s ft : Nat) (pl : List Nat) (n : Nat)
    (hs : s ∈ VALID_SYNC_BYTES)
    (hp : ∀ s' ∈ priorSyncs s, s' ∉ build s ft pl)
    (hlen : pl.length ≤ 60)
    (hn : 0 < n) (hn2 : n < (build s ft pl).length) :
    onUartData initParser ((build s ft pl).take n) =
        (⟨(build s ft pl).take n⟩, [(build s ft pl).take n]) ∧
      onUartData initParser (build s ft pl) = (⟨build s ft pl⟩, []) := by
  constructor
  · have hple : ((build s ft pl).take n).length = n := by
      rw [List.length_take]
      omega
    have hstep : processBuffer ((build s ft pl).take n) =
        .ok [] ((build s ft pl).take n) := by
      apply processBuffer_prefix s ft pl _ hs hp hlen (List.take_prefix n _)
      rw [hple]
      exact hn2
    simp only [onUartData, addData, initParser, List.nil_append, hstep]
    rw [if_pos (by rw [hple]; exact hn)]
    simp
  · have hblen : (build s ft pl).length = pl.length + 4 := by
      rw [build_eq]
      simp
    simp only [onUartData, addData, initParser, List.nil_append,
      processBuffer_build s ft pl hs hp hlen]
    rw [if_pos (by omega)]

/-- C5, witness: the first three bytes of a concrete valid frame are
buffered and still forwarded raw, and the complete frame as one chunk
yields no forward at all. -/
theorem raw_forward_witness :
    (0 : Nat) < 3 ∧
      (onUartData initParser ((build 0xC8 0x16 [1, 2, 3]).take 3) =
          (⟨(build 0xC8 0x16 [1, 2, 3]).take 3⟩,
            [(build 0xC8 0x16 [1, 2, 3]).take 3]) ∧
        onUartData initParser (build 0xC8 0x16 [1, 2, 3]) =
          (⟨build 0xC8 0x16 [1, 2, 3]⟩, [])) :=
  ⟨by decide, raw_forward 0xC8 0x16 [1, 2, 3] 3 (by decide) (by decide)
    (by decide) (by decide) (by decide)⟩

/-- An externally visible action of a transceiver `send`: a value written
to the RX-enable or TX-enable GPIO line (`DualGPIO_UART`), a value
written to the single DIR pin (`HalfDuplexUART`), a timed wait, a serial
write (+flush), or a serial buffer reset. -/
inductive UartEvent where
  | rxLine : Nat → UartEvent
  | txLine : Nat → UartEvent
  | dirPin : Nat → UartEvent
  | sleep : ℚ → UartEvent
  | write : List Nat → UartEvent
  | resetBuffers : UartEvent
  deriving DecidableEq, Repr

/-- `DualGPIO_UART.DIRECTION_SWITCH_DELAY = 0.00005` (50 µs). -/
def DIRECTION_SWITCH_DELAY : ℚ := 5 / 100000

/-- `DualGPIO_UART._set_direction_tx`: `rx_line = 0`, then `tx_line = 1`. -/
def setDirectionTx : List UartEvent := [.rxLine 0, .txLine 1]

/-- `DualGPIO_UART._set_direction_rx`: `tx_line = 0`, then `rx_line = 1`. -/
def setDirectionRx : List UartEvent := [.txLine 0, .rxLine 1]

/-- `DualGPIO_UART.send` under the lock, as its action trace plus return
value. `writeOk` models whether `ser.write`/`flush` raises
`SerialException`: on an exception the post-write completion sleep is
skipped and `False` is returned, but the `finally` block still runs
`_set_direction_rx`. The completion sleep is
`len(write_data) * 10.0 / baudrate + DIRECTION_SWITCH_DELAY`. -/
def dualSend (baudrate : Nat) (invert : Bool) (data : List Nat)
    (writeOk : Bool) : List UartEvent × Bool :=
  let write_data := if invert then data.map fun b => b ^^^ 0xFF else data
  if writeOk then
    (setDirectionTx ++ [.sleep DIRECTION_SWITCH_DELAY, .write write_data,
      .sleep ((write_data.length * 10 : ℚ) / baudrate + DIRECTION_SWITCH_DELAY)] ++
      setDirectionRx, true)
  else
    (setDirectionTx ++ [.sleep DIRECTION_SWITCH_DELAY, .write write_data] ++
      setDirectionRx, false)

/-- `HalfDuplexUART._set_tx_mode`: when not already transmitting, DIR pin
high then a fixed 0.0001 s settle sleep. -/
def hdSetTx (is_tx : Bool) : List UartEvent :=
  if is_tx then [] else [.dirPin 1, .sleep (1 / 10000)]

/-- `HalfDuplexUART._set_rx_mode`: when transmitting, DIR pin low then a
fixed 0.0001 s settle sleep. -/
def hdSetRx (is_tx : Bool) : List UartEvent :=
  if is_tx then [.dirPin 0, .sleep (1 / 10000)] else []

/-- `HalfDuplexUART.send` starting in receive mode: switch to TX, reset
the serial buffers, write+flush, wait the fixed `tx_timeout`, switch
back to RX. On a write error (`writeOk = false`) the handler skips the
wait, still switches back to RX, and returns `False`. -/
def hdSend (tx_timeout : ℚ) (data : List Nat) (writeOk : Bool) :
    List UartEvent × Bool :=
  if writeOk then
    (hdSetTx false ++ [.resetBuffers, .write data, .sleep tx_timeout] ++
      hdSetRx true, true)
  else
    (hdSetTx false ++ [.resetBuffers, .write data] ++ hdSetRx true, false)

/-- The sleep immediately following the serial write in a trace: the
"wait for on-wire completion" delay of a send. -/
def sleepAfterWrite : List UartEvent → Option ℚ
  | [] => none
  | .write _ :: .sleep d :: _ => some d
  | _ :: t => sleepAfterWrite t

/-- The two direction-control outputs of `DualGPIO_UART`. -/
structure LineState where
  tx : Nat
  rx : Nat
  deriving DecidableEq, Repr

/-- Apply one event to the direction-control lines. -/
def stepEvent (st : LineState) : UartEvent → LineState
  | .rxLine v => { st with rx := v }
  | .txLine v => { st with tx := v }
  | _ => st

/-- The direction-control lines after running a trace. -/
def runEvents (st : LineState) (tr : List UartEvent) : LineState :=
  tr.foldl stepEvent st

/-- The last value written to the single DIR pin in a trace, if any. -/
def lastDirPin (tr : List UartEvent) : Option Nat :=
  tr.foldl (fun acc e => match e with | .dirPin v => some v | _ => acc) none

/-- The claim's proportional completion wait, read against
`HalfDuplexUART.send` with its default `tx_timeout = 0.001` and the CRSF
baud rate 416666: some constant relates the post-write wait to byte
count over baud rate. -/
def hdWaitProportional : Prop :=
  ∃ c : ℚ, ∀ data : List Nat,
    sleepAfterWrite (hdSend (1 / 1000) data true).1 =
      some (c * data.length / 416666)

/-- C7, counterexample. `HalfDuplexUART.send` waits the fixed
`tx_timeout` (0.001 s) after every write, regardless of byte count, so
no constant of proportionality relates its on-wire wait to
byte-count/baud-rate: the empty write already waits 0.001 s where any
proportional delay would be 0. -/
theorem transceiver_counterexample : ¬ hdWaitProportional := by
  rintro ⟨c, h⟩
  have h0 := h []
  rw [show sleepAfterWrite (hdSend (1 / 1000) [] true).1 = some (1 / 1000)
    from by simp [hdSend, hdSetTx, hdSetRx, sleepAfterWrite]] at h0
  simp only [List.length_nil, Nat.cast_zero, mul_zero, zero_div,
    Option.some.injEq] at h0
  norm_num at h0

/-- C7, amended: `DualGPIO_UART.send` deasserts RECEIVE before asserting
TRANSMIT, never drives both enables at once, waits the 50 µs settle
delay, writes, waits `len·10/baud + 50 µs` for on-wire completion, and —
error or not — finishes with the lines back in RECEIVE (tx=0, rx=1).
`HalfDuplexUART.send`, by contrast, drives a single DIR pin, waits a
fixed `tx_timeout` independent of byte count, and also ends with the DIR
pin back at RECEIVE (low) even on a write error. -/
theorem transceiver_send (baud : Nat) (inv : Bool) (data : List Nat)
    (ok : Bool) (t : ℚ) :
    runEvents ⟨0, 1⟩ (dualSend baud inv data ok).1 = ⟨0, 1⟩ ∧
      (∀ st ∈ List.scanl stepEvent ⟨0, 1⟩ (dualSend baud inv data ok).1,
        ¬(st.tx = 1 ∧ st.rx = 1)) ∧
      UartEvent.sleep
          (((if inv then data.map fun b => b ^^^ 0xFF else data).length * 10 : ℚ) /
            baud + DIRECTION_SWITCH_DELAY) ∈ (dualSend baud inv data true).1 ∧
      sleepAfterWrite (hdSend t data true).1 = some t ∧
      lastDirPin (hdSend t data ok).1 = some 0 := by
  cases ok <;>
    simp [dualSend, hdSend, hdSetTx, hdSetRx, setDirectionTx, setDirectionRx,
      runEvents, stepEvent, lastDirPin, sleepAfterWrite, List.scanl]

/-- `CRSFFrameType` from `crsf_protocol.py`. It subclasses Python's plain
`Enum` (not `IntEnum`), so a member compares equal only to itself — never
to the int that is its `.value`. -/
inductive CRSFFrameType where
  | GPS
  | BATTERY_SENSOR
  | HEARTBEAT
  | LINK_STATISTICS
  | RC_CHANNELS_PACKED
  | ATTITUDE
  | FLIGHT_MODE
  | PING
  | DEVICE_INFO
  | PARAM_ENTRY
  | PARAM_READ
  | PARAM_WRITE
  deriving DecidableEq, Repr

/-- The `.value` of each `CRSFFrameType` member. -/
def CRSFFrameType.val : CRSFFrameType → Nat
  | .GPS => 0x02
  | .BATTERY_SENSOR => 0x08
  | .HEARTBEAT => 0x0B
  | .LINK_STATISTICS => 0x14
  | .RC_CHANNELS_PACKED => 0x16
  | .ATTITUDE => 0x1E
  | .FLIGHT_MODE => 0x21
  | .PING => 0x28
  | .DEVICE_INFO => 0x29
  | .PARAM_ENTRY => 0x2B
  | .PARAM_READ => 0x2C
  | .PARAM_WRITE => 0x2D

/-- A Python value standing in a `frame_type` position: a plain int or a
`CRSFFrameType` enum member. -/
inductive PyVal where
  | int : Nat → PyVal
  | enum : CRSFFrameType → PyVal
  deriving DecidableEq

/-- Python `==` on such values: ints compare by value, `Enum` members by
identity, and an int never equals an `Enum` member (plain `Enum` defines
no cross-type equality, so `20 == CRSFFrameType.LINK_STATISTICS` is
`False`). -/
def pyEq : PyVal → PyVal → Bool
  | .int a, .int b => a == b
  | .enum a, .enum b => a == b
  | .int _, .enum _ => false
  | .enum _, .int _ => false

/-- `CRSFFrame.__init__` normalizes the `frame_type` argument: an enum
member is replaced by its `.value`, so the stored attribute is always a
plain int. -/
def storedFrameType : PyVal → Nat
  | .enum e => e.val
  | .int n => n

/-- The link-statistics snapshot stored in
`SmartBridge.telemetry_data['link_stats']`. -/
structure LinkStats where
  uplink_rssi_1 : Option Int
  uplink_rssi_2 : Option Int
  uplink_quality : Nat
  uplink_snr : Int
  antenna : Nat
  rf_mode : Nat
  tx_power : Nat
  downlink_rssi : Option Int
  downlink_quality : Nat
  downlink_snr : Int
  deriving DecidableEq, Repr

/-- The LINK_STATISTICS byte layout of
`SmartBridge._extract_telemetry_data` (lines 209-220): RSSI bytes negate
when positive and are `None` on 0; SNR bytes are signed. -/
def linkStatsOfPayload (p : List Nat) : LinkStats where
  uplink_rssi_1 := if 0 < p.getD 0 0 then some (-(p.getD 0 0 : Int)) else none
  uplink_rssi_2 := if 0 < p.getD 1 0 then some (-(p.getD 1 0 : Int)) else none
  uplink_quality := p.getD 2 0
  uplink_snr := if p.getD 3 0 < 128 then (p.getD 3 0 : Int)
    else (p.getD 3 0 : Int) - 256
  antenna := p.getD 4 0
  rf_mode := p.getD 5 0
  tx_power := p.getD 6 0
  downlink_rssi := if 0 < p.getD 7 0 then some (-(p.getD 7 0 : Int)) else none
  downlink_quality := p.getD 8 0
  downlink_snr := if p.getD 9 0 < 128 then (p.getD 9 0 : Int)
    else (p.getD 9 0 : Int) - 256

/-- The LINK_STATISTICS branch of `_extract_telemetry_data` (line 206):
the guard is `frame_type == CRSFFrameType.LINK_STATISTICS and
len(frame.payload) >= 10`, where `frame_type` is the frame's stored
(int) attribute compared against the enum member with Python `==`.
Returns the new value of the `link_stats` slot. -/
def extractLinkStats (f : Frame) (cur : Option LinkStats) : Option LinkStats :=
  if pyEq (.int f.frame_type) (.enum .LINK_STATISTICS) ∧ 10 ≤ f.payload.length then
    some (linkStatsOfPayload f.payload)
  else cur

/-- C8: on the reference LINK_STATISTICS frame the extraction branch
never fires — the stored frame type is the int `0x14` (the enum member's
`.value`), but the guard compares it to the `Enum` member itself, which
Python evaluates to `False` — so `link_stats` stays empty. The layout
code below the dead guard would produce exactly the claimed snapshot
(uplink_rssi_1 = −80, uplink_rssi_2 = None, quality 95, SNR −6, antenna
1, rf_mode 2, tx_power 20, downlink RSSI None, quality 90, SNR 6). -/
theorem link_stats_extraction :
    storedFrameType (.enum .LINK_STATISTICS) = 0x14 ∧
      extractLinkStats ⟨0xC8, 0x14, [80, 0, 95, 250, 1, 2, 20, 0, 90, 6]⟩ none = none ∧
      linkStatsOfPayload [80, 0, 95, 250, 1, 2, 20, 0, 90, 6] =
        ⟨some (-80), none, 95, -6, 1, 2, 20, none, 90, 6⟩ := by
  decide

end CRSF
